import Mathlib

set_option maxRecDepth 100000

/-!
A verification model of the `sphere` CLI (src/main.rs).

This file gives a shallow embedding of the dependency-resolution,
integrity-verified-fetch and sandboxed-execution pipeline of the
`sphere-runtime` repository, together with theorems checking the
natural-language specification's claims against it.

Conventions of the embedding:
* file contents and paths are `String`s; byte sequences are `List Nat`
  (each element `< 256`);
* the file system, the on-disk cache index and the in-memory cache index
  are association lists `List (String × String)`;
* fallible Rust code returning `Result<_, Box<dyn Error>>` becomes
  `Except` with an explicit error type;
* observable side effects (index reads/writes, HTTP traffic, file and
  shim writes, sandbox creation/removal, process execution) are recorded
  in an explicit effect trace;
* machine integers are `Nat` with explicit `% 2 ^ 32` where overflow
  matters (the SHA-256 model).
-/

namespace Sphere

/-! ## Bytes and SHA-256 (model of the `sha2` crate's `Sha256`)

The fetch path of `src/main.rs` (lines 396-399) hashes the downloaded
bytes with SHA-256 and renders the digest as lower-case hex via
`format!("{:x}", ...)`.  We implement SHA-256 (FIPS 180-4) over byte
lists so the model's digests are the real ones. -/

/-- Truncate to an unsigned 32-bit value. -/
def u32 (x : Nat) : Nat := x % 4294967296

/-- 32-bit rotate right by `n` (for `0 < n < 32`). -/
def rotr32 (n x : Nat) : Nat := u32 (x / 2 ^ n + x % 2 ^ n * 2 ^ (32 - n))

/-- 32-bit logical shift right. -/
def shr32 (n x : Nat) : Nat := x / 2 ^ n

def bsig0 (x : Nat) : Nat := rotr32 2 x ^^^ rotr32 13 x ^^^ rotr32 22 x
def bsig1 (x : Nat) : Nat := rotr32 6 x ^^^ rotr32 11 x ^^^ rotr32 25 x
def ssig0 (x : Nat) : Nat := rotr32 7 x ^^^ rotr32 18 x ^^^ shr32 3 x
def ssig1 (x : Nat) : Nat := rotr32 17 x ^^^ rotr32 19 x ^^^ shr32 10 x
def chf (x y z : Nat) : Nat := x &&& y ^^^ ((x ^^^ 4294967295) &&& z)
def maj (x y z : Nat) : Nat := x &&& y ^^^ (x &&& z) ^^^ (y &&& z)

/-- The 64 SHA-256 round constants. -/
def sha256K : List Nat :=
  [1116352408, 1899447441, 3049323471, 3921009573, 961987163, 1508970993,
   2453635748, 2870763221, 3624381080, 310598401, 607225278, 1426881987,
   1925078388, 2162078206, 2614888103, 3248222580, 3835390401, 4022224774,
   264347078, 604807628, 770255983, 1249150122, 1555081692, 1996064986,
   2554220882, 2821834349, 2952996808, 3210313671, 3336571891, 3584528711,
   113926993, 338241895, 666307205, 773529912, 1294757372, 1396182291,
   1695183700, 1986661051, 2177026350, 2456956037, 2730485921, 2820302411,
   3259730800, 3345764771, 3516065817, 3600352804, 4094571909, 275423344,
   430227734, 506948616, 659060556, 883997877, 958139571, 1322822218,
   1537002063, 1747873779, 1955562222, 2024104815, 2227730452, 2361852424,
   2428436474, 2756734187, 3204031479, 3329325298]

/-- The initial SHA-256 hash state. -/
def sha256H0 : List Nat :=
  [1779033703, 3144134277, 1013904242, 2773480762,
   1359893119, 2600822924, 528734635, 1541459225]

/-- SHA-256 padding: append `0x80`, zeros, and the 64-bit big-endian bit length. -/
def sha256Pad (msg : List Nat) : List Nat :=
  let len := msg.length
  let z := (119 - len % 64) % 64
  let bitlen := 8 * len
  msg ++ [0x80] ++ List.replicate z 0 ++
    (List.range 8).map (fun i => bitlen / 2 ^ (8 * (7 - i)) % 256)

/-- Split a padded message into 64-byte blocks (fuel-indexed structural
recursion so the kernel can evaluate it; the fuel in `toBlocks` always
suffices). -/
def toBlocksAux : Nat → List Nat → List (List Nat)
  | _, [] => []
  | 0, _ :: _ => []
  | fuel + 1, b :: rest => (b :: rest).take 64 :: toBlocksAux fuel ((b :: rest).drop 64)

/-- Split a padded message into 64-byte blocks. -/
def toBlocks (l : List Nat) : List (List Nat) := toBlocksAux (l.length / 64 + 1) l

/-- The 16 big-endian 32-bit words of one block. -/
def blockWords (b : List Nat) : List Nat :=
  (List.range 16).map fun i =>
    b.getD (4 * i) 0 * 16777216 + b.getD (4 * i + 1) 0 * 65536 +
      b.getD (4 * i + 2) 0 * 256 + b.getD (4 * i + 3) 0

/-- Extend 16 message-schedule words to 64. -/
def schedule (ws0 : List Nat) : List Nat :=
  (List.range 48).foldl
    (fun ws _ =>
      let n := ws.length
      ws ++ [u32 (ssig1 (ws.getD (n - 2) 0) + ws.getD (n - 7) 0 +
                   ssig0 (ws.getD (n - 15) 0) + ws.getD (n - 16) 0)])
    ws0

/-- One round of the SHA-256 compression function. -/
def round (st : List Nat) (kw : Nat × Nat) : List Nat :=
  let a := st.getD 0 0
  let b := st.getD 1 0
  let c := st.getD 2 0
  let d := st.getD 3 0
  let e := st.getD 4 0
  let f := st.getD 5 0
  let g := st.getD 6 0
  let h := st.getD 7 0
  let t1 := u32 (h + bsig1 e + chf e f g + kw.1 + kw.2)
  let t2 := u32 (bsig0 a + maj a b c)
  [u32 (t1 + t2), a, b, c, u32 (d + t1), e, f, g]

/-- Process one 64-byte block. -/
def compress (h : List Nat) (b : List Nat) : List Nat :=
  let w := schedule (blockWords b)
  let st := (sha256K.zip w).foldl round h
  (h.zip st).map fun p => u32 (p.1 + p.2)

/-- The SHA-256 digest of a byte list, as eight 32-bit words. -/
def sha256Words (msg : List Nat) : List Nat :=
  (toBlocks (sha256Pad msg)).foldl compress sha256H0

/-- A nibble as a lower-case hex character. -/
def hexDigit (n : Nat) : Char := if n < 10 then Char.ofNat (48 + n) else Char.ofNat (87 + n)

/-- A 32-bit word as eight lower-case hex characters. -/
def wordHex (w : Nat) : List Char := (List.range 8).map fun i => hexDigit (w / 2 ^ (4 * (7 - i)) % 16)

/-- Lower-case hex SHA-256 digest of a byte list: the model of
`format!("{:x}", Sha256::digest(bytes))`. -/
def sha256hex (msg : List Nat) : String := String.mk ((sha256Words msg).flatMap wordHex)

/-- UTF-8 encoding of one character. -/
def charBytes (c : Char) : List Nat :=
  let n := c.toNat
  if n < 128 then [n]
  else if n < 2048 then [192 + n / 64, 128 + n % 64]
  else if n < 65536 then [224 + n / 4096, 128 + n / 64 % 64, 128 + n % 64]
  else [240 + n / 262144, 128 + n / 4096 % 64, 128 + n / 64 % 64, 128 + n % 64]

/-- The UTF-8 bytes of a string (file contents are UTF-8 text throughout). -/
def strBytes (s : String) : List Nat := s.data.flatMap charBytes

/-! ## Strings, paths and association lists

String manipulation is done on the underlying character lists by
structural recursion, so that the kernel can evaluate every definition
on concrete inputs. -/

/-- ASCII whitespace (the manifests and ids in play are ASCII). -/
def isWS (c : Char) : Bool := c == ' ' || c == '\t' || c == '\n' || c == '\r'

/-- Model of `str::trim`. -/
def trimStr (s : String) : String :=
  String.mk (((s.data.dropWhile isWS).reverse.dropWhile isWS).reverse)

/-- Split a character list at every occurrence of `sep`. -/
def splitChar (sep : Char) : List Char → List (List Char)
  | [] => [[]]
  | c :: cs =>
    match splitChar sep cs with
    | [] => [[c]]
    | l :: ls => if c == sep then [] :: l :: ls else (c :: l) :: ls

/-- The lines of a file (model of `splitOn "\n"`). -/
def linesOf (s : String) : List String := (splitChar '\n' s.data).map String.mk

/-- Split a string at every `sep` character. -/
def splitOnChar (sep : Char) (s : String) : List String :=
  (splitChar sep s.data).map String.mk

/-- Rejoin split parts (model of `String::intercalate`). -/
def joinWith (sep : String) : List String → String
  | [] => ""
  | [x] => x
  | x :: y :: rest => x ++ sep ++ joinWith sep (y :: rest)

/-- Model of `str::ends_with`. -/
def endsWithStr (s suffix : String) : Bool := List.isSuffixOf suffix.data s.data

/-- `l₁` occurs as a contiguous sublist of `l₂`, decided structurally. -/
def isInfixB (l1 : List Char) : List Char → Bool
  | [] => l1.isEmpty
  | b :: bs => l1.isPrefixOf (b :: bs) || isInfixB l1 bs

theorem isInfixB_iff (l1 l2 : List Char) : isInfixB l1 l2 = true ↔ l1 <:+: l2 := by
  induction l2 with
  | nil =>
    simp [isInfixB, List.isEmpty_iff]
  | cons b bs ih =>
    simp [isInfixB, List.infix_cons_iff, ih, List.isPrefixOf_iff_prefix, Bool.or_eq_true]

/-- `sub` occurs as a contiguous substring of `msg` (used to state that an
error message *names* an id, an alias or a digest). -/
def mentions (msg sub : String) : Prop := List.IsInfix sub.data msg.data

instance (msg sub : String) : Decidable (mentions msg sub) :=
  decidable_of_iff (isInfixB sub.data msg.data = true) (isInfixB_iff sub.data msg.data)

/-- Model of Rust's `str::contains` as used by `main`'s error classifier. -/
def containsSub (s pat : String) : Bool := isInfixB pat.data s.data

/-- Unix `Path::is_absolute`: the path has a root, i.e. starts with `/`. -/
def isAbsPath (s : String) : Bool := s.data.head? == some '/'

/-- Unix `Path::join`: appends with a separator, except that joining an
absolute path replaces the base entirely. -/
def pjoin (base rel : String) : String :=
  if isAbsPath rel then rel else base ++ "/" ++ rel

/-- Association-list lookup (model of `HashMap::get`). -/
def alGet {α : Type} : List (String × α) → String → Option α
  | [], _ => none
  | p :: ps, k => if p.1 == k then some p.2 else alGet ps k

/-- Association-list update (model of `HashMap::insert`: replaces the
binding of an existing key, otherwise appends a new one). -/
def alInsert {α : Type} (k : String) (v : α) : List (String × α) → List (String × α)
  | [] => [(k, v)]
  | p :: ps => if p.1 == k then (k, v) :: ps else p :: alInsert k v ps

/-! ## Data model (src/main.rs lines 76-95)

`SphereProcess.dependencies` holds the parsed `alias → id` map as an
association list in the order the manifest declares it; the *iteration*
order of the corresponding Rust `HashMap` is modelled separately (see
`Ox.iterOrder` below). -/

/-- `struct SphereProcess` (line 77). -/
structure SphereProcess where
  id : Option String
  entrypoint : String
  dependencies : Option (List (String × String))
deriving Repr, DecidableEq

/-- `struct Dependency` (line 84). The Rust field `alias` is named
`aliasName` because `alias` is a reserved word in this development. -/
structure Dependency where
  aliasName : String
  process : SphereProcess
deriving Repr, DecidableEq

/-- `struct HubSphereInfo` (line 89). -/
structure HubSphereInfo where
  filename : String
  description : String
  author : String
  hash_sha256 : String
deriving Repr, DecidableEq

/-! ## Errors

`Box<dyn Error>` values reaching `main` are distinguished only by (a)
whether `downcast_ref::<toml::de::Error>()` succeeds and (b) their
`Display` string.  `run_sphere` and `handle_sphere_publish` turn TOML
parse failures into `String`s with `map_err(|e| format!(...))` before
`?`-boxing them, so we model a boxed error as either a genuine
`toml::de::Error` or any other error identified by its display text. -/

/-- Model of `toml::de::Error`, identified by its `message()` text. -/
structure TomlDeError where
  message : String
deriving Repr, DecidableEq

/-- Model of `Box<dyn Error>`: either a `toml::de::Error` or any other
boxed error (a `String`, an `io::Error`, ...) via its display text. -/
inductive BoxedError where
  | toml (e : TomlDeError)
  | other (display : String)
deriving Repr, DecidableEq

/-- The display text of a boxed error (`format!("{}", e)`). -/
def BoxedError.display : BoxedError → String
  | .toml e => e.message
  | .other s => s

/-! ## Manifest Loader (model of `toml::from_str::<SphereProcess>`)

The `toml` crate is third-party code; this models its behaviour on the
line-based subset of TOML that `.sphere` manifests use (§6 of the spec
calls the format "text, key/value"): top-level `key = "value"`
assignments, a `[dependencies]` table of `alias = "id"` assignments,
comments, blank lines, quoted keys, and serde's behaviour of ignoring
unknown keys/tables and failing with `missing field entrypoint` when the
required field is absent. -/

/-- Characters allowed in a TOML bare key. -/
def bareKeyChar (c : Char) : Bool := c.isAlphanum || c == '_' || c == '-'

/-- Strip one level of surrounding double quotes, if present. -/
def stripQuotes (s : String) : Option String :=
  if 2 ≤ s.data.length && s.data.head? == some '"' && s.data.getLast? == some '"' then
    some (String.mk (s.data.drop 1).dropLast)
  else none

/-- Parse the key part of a `key = value` line (bare or quoted). -/
def parseKey (s : String) : Option String :=
  match stripQuotes s with
  | some k => some k
  | none => if s ≠ "" && s.data.all bareKeyChar then some s else none

/-- Which table the parser is currently inside. -/
inductive Sect where
  | root
  | deps
  | other
deriving Repr, DecidableEq

/-- One pass over the manifest's lines, mirroring a TOML document parse
followed by serde deserialization into `SphereProcess`. -/
def parseLines : List String → Sect → Option String → Option String →
    Option (List (String × String)) → Except TomlDeError SphereProcess
  | [], _, idAcc, epAcc, depsAcc =>
    match epAcc with
    | none => .error ⟨"missing field `entrypoint`"⟩
    | some ep => .ok ⟨idAcc, ep, depsAcc⟩
  | l :: ls, sect, idAcc, epAcc, depsAcc =>
    let t := trimStr l
    if t = "" || t.data.head? == some '#' then
      parseLines ls sect idAcc epAcc depsAcc
    else if t = "[dependencies]" then
      if depsAcc.isSome then .error ⟨"redefinition of table `dependencies`"⟩
      else parseLines ls .deps idAcc epAcc (some [])
    else if t.data.head? == some '[' then
      if t.data.getLast? == some ']' then parseLines ls .other idAcc epAcc depsAcc
      else .error ⟨"invalid table header"⟩
    else
      match splitOnChar '=' t with
      | [] => .error ⟨"expected `=`"⟩
      | [_] => .error ⟨"expected `=`"⟩
      | kRaw :: vParts =>
        match parseKey (trimStr kRaw) with
        | none => .error ⟨"invalid key"⟩
        | some k =>
          let vRaw := trimStr (joinWith "=" vParts)
          let vStr := stripQuotes vRaw
          match sect with
          | .root =>
            if k = "entrypoint" then
              match vStr with
              | none => .error ⟨"invalid type: expected a string for key `entrypoint`"⟩
              | some v =>
                if epAcc.isSome then .error ⟨"duplicate key `entrypoint`"⟩
                else parseLines ls .root idAcc (some v) depsAcc
            else if k = "id" then
              match vStr with
              | none => .error ⟨"invalid type: expected a string for key `id`"⟩
              | some v =>
                if idAcc.isSome then .error ⟨"duplicate key `id`"⟩
                else parseLines ls .root (some v) epAcc depsAcc
            else parseLines ls .root idAcc epAcc depsAcc
          | .deps =>
            match vStr with
            | none => .error ⟨"invalid type: expected a string value in table `dependencies`"⟩
            | some v =>
              let cur := depsAcc.getD []
              if cur.any (fun p => p.1 == k) then .error ⟨"duplicate key in table `dependencies`"⟩
              else parseLines ls .deps idAcc epAcc (some (cur ++ [(k, v)]))
          | .other => parseLines ls .other idAcc epAcc depsAcc

/-- Model of `toml::from_str::<SphereProcess>(content)`. -/
def tomlFromStr (content : String) : Except TomlDeError SphereProcess :=
  parseLines (linesOf content) .root none none none

/-! ## State, network environment and effect traces

`CacheSt` is the persistent state the tool touches: the file system
(absolute path ↦ content — every entry is a regular file) and the parsed
content of `~/.sphere/cache/index.json`.  An in-memory copy of the index
is threaded separately where the source holds one (`local_index`).

`Hub` is the remote registry at the parsed level: the master index
(`id ↦ HubSphereInfo`, i.e. the JSON at `<registry>/index.json`) and the
raw bodies served under `<registry>/spheres/<filename>` (`none` models a
non-2xx response).  Transport failures and malformed master-index JSON
are not modelled; no claim depends on them. -/

structure CacheSt where
  fs : List (String × String)
  diskIndex : List (String × String)
deriving Repr, DecidableEq

structure Hub where
  masterIndex : List (String × HubSphereInfo)
  fileContent : String → Option String

/-- Observable side effects of one invocation, in order. -/
inductive Effect where
  | idxRead
  | idxWrite
  | httpBuild
  | httpGet (url : String)
  | fileWrite (path content : String)
  | shimWrite (path content : String) (mode : Nat)
  | sandboxCreate (root : String)
  | sandboxRemove (root : String)
  | execCall
deriving Repr, DecidableEq

/-- `const SPHEREHUB_REGISTRY_URL` (line 16). -/
def SPHEREHUB_REGISTRY_URL : String :=
  "https://raw.githubusercontent.com/Nakadra/sphere-hub-registry/main/registry/"

/-! ## Hub Fetcher: `fetch_sphere_from_hub` (lines 357-423) -/

structure FetchOut where
  res : Except String String
  memIndex : List (String × String)
  st : CacheSt
  effs : List Effect
deriving Repr

/-- Model of `fetch_sphere_from_hub`.  Status narration (`println!`) is
omitted.  The downloaded body is a `String` whose UTF-8 bytes are the
downloaded bytes. -/
def fetch_sphere_from_hub (sphere_id : String) (local_cache_dir : String) (hub : Hub)
    (local_index : List (String × String)) (st : CacheSt) : FetchOut :=
  let master_index_url := SPHEREHUB_REGISTRY_URL ++ "index.json"
  match alGet hub.masterIndex sphere_id with
  | none =>
    ⟨.error ("Sphere ID '" ++ sphere_id ++ "' not found in the public SphereHub registry at "
        ++ master_index_url ++ "."),
      local_index, st, [.httpGet master_index_url]⟩
  | some hub_info =>
    let sphere_file_url := SPHEREHUB_REGISTRY_URL ++ "spheres/" ++ hub_info.filename
    match hub.fileContent hub_info.filename with
    | none =>
      ⟨.error ("Failed to fetch Sphere file '" ++ hub_info.filename ++ "' from '"
          ++ sphere_file_url ++ "': HTTP error"),
        local_index, st, [.httpGet master_index_url, .httpGet sphere_file_url]⟩
    | some body =>
      let calculated_hash_hex := sha256hex (strBytes body)
      if calculated_hash_hex ≠ hub_info.hash_sha256 then
        ⟨.error ("Hash mismatch for Sphere '" ++ sphere_id ++ "' (file '" ++ hub_info.filename
            ++ "')! Expected: " ++ hub_info.hash_sha256 ++ ", Got: " ++ calculated_hash_hex
            ++ ". File may be corrupted or tampered."),
          local_index, st, [.httpGet master_index_url, .httpGet sphere_file_url]⟩
      else
        let local_sphere_file_path := pjoin local_cache_dir hub_info.filename
        let fs' := alInsert local_sphere_file_path body st.fs
        let mem' := alInsert sphere_id hub_info.filename local_index
        ⟨.ok local_sphere_file_path, mem', ⟨fs', mem'⟩,
          [.httpGet master_index_url, .httpGet sphere_file_url,
           .fileWrite local_sphere_file_path body, .idxWrite]⟩

/-! ## Cache Index Store: `handle_cache_add` (lines 156-226) -/

/-- Characters kept by the id sanitization at line 184: Rust's
`c.is_alphanumeric() || c == '.' || c == '-'` (modelled for ASCII ids). -/
def keepChar (c : Char) : Bool := c.isAlphanum || c == '.' || c == '-'

/-- `id.replace(|c| !keep(c), "_")` (line 184). -/
def sanitizeId (id : String) : String :=
  String.mk (id.data.map fun c => if keepChar c then c else '_')

/-- `id.chars().filter(|c| c.is_alphanumeric()).collect()` (line 189). -/
def filterAlnum (id : String) : String := String.mk (id.data.filter Char.isAlphanum)

/-- The cache filename derived from an id (lines 184-193): sanitize,
ensure a `.sphere` suffix, synthesize from the alphanumeric characters
when sanitization yields an empty stem, `none` when even that fails. -/
def derivedName (id : String) : Option String :=
  let n0 := sanitizeId id
  let n1 := if endsWithStr n0 ".sphere" then n0 else n0 ++ ".sphere"
  if n1 == ".sphere" || n1 == "" then
    let n2 := "sphere_" ++ filterAlnum id ++ ".sphere"
    if n2 == "sphere_.sphere" then none else some n2
  else some n1

/-- Model of `handle_cache_add`.  `sphere_file_path` is taken to be an
absolute path; `fs::canonicalize` of an existing absolute path is
modelled as the identity (no symlinks in the model).  The model file
system contains only regular files, so the `is_file()` check of line 177
coincides with existence. -/
def handle_cache_add (id : String) (sphere_file_path : String) (copy_to_cache : Bool)
    (cache_dir : String) (st : CacheSt) : Except String Unit × CacheSt × List Effect :=
  -- lines 163-164: get_cache_paths + load_cache_index
  let index := st.diskIndex
  if trimStr id = "" then
    (.error "Sphere ID cannot be empty.", st, [.idxRead])
  else if (alGet index id).isSome then
    (.error ("Sphere ID '" ++ id ++ "' already exists in the cache index. Use 'sphere cache remove "
        ++ id ++ "' first or choose a different ID."), st, [.idxRead])
  else
    match alGet st.fs sphere_file_path with
    | none => (.error ("Source file '" ++ sphere_file_path ++ "' does not exist."), st, [.idxRead])
    | some content =>
      if copy_to_cache then
        match derivedName id with
        | none =>
          (.error ("Cannot derive a valid cache filename from the provided ID. "
              ++ "Please use an ID with alphanumeric characters."), st, [.idxRead])
        | some cached_file_name =>
          let target_cache_path := pjoin cache_dir cached_file_name
          if (alGet st.fs target_cache_path).isSome then
            (.error ("A file named '" ++ cached_file_name ++ "' (derived from ID '" ++ id
                ++ "') already exists in the cache directory '" ++ cache_dir ++ "'."),
              st, [.idxRead])
          else
            let fs' := alInsert target_cache_path content st.fs
            let index' := alInsert id cached_file_name index
            (.ok (), ⟨fs', index'⟩,
              [.idxRead, .fileWrite target_cache_path content, .idxWrite])
      else
        let index' := alInsert id sphere_file_path index
        (.ok (), ⟨st.fs, index'⟩, [.idxRead, .idxWrite])

/-! ## `run_sphere` (lines 427-574)

The OS-dependent inputs of a run are collected in `Ox`:
* `iterOrder` — the order in which this process's
  `HashMap<String, String>` yields the dependency entries.  Rust's
  `HashMap` uses a randomly seeded hasher, so the order is some
  permutation of the entries that is not a function of the manifest;
* `tempdirRes` — the result of `tempfile::tempdir()` (the fresh sandbox
  root on success);
* `shimFail` — per-path failure injection for `fs::File::create` of a
  shim (the attached message stands in for the `io::Error` display);
* `execRes` — the result of `Command::output()`. -/

structure ExecResult where
  stdout : String
  stderr : String
  success : Bool
deriving Repr, DecidableEq

structure Ox where
  iterOrder : List (String × String) → List (String × String)
  tempdirRes : Except String String
  shimFail : String → Bool
  execRes : Except String ExecResult

/-- The process invocation built at lines 540-545: program, arguments,
working directory and full environment. -/
structure ExecCmd where
  prog : String
  args : List String
  cwd : String
  env : String → Option String

/-- Accumulator of the dependency-resolution loop (lines 458-510):
in-memory index, persistent state, effects so far, resolved list. -/
structure ResolveSt where
  mem : List (String × String)
  st : CacheSt
  effs : List Effect
  deps : List Dependency
deriving Repr, DecidableEq

/-- One iteration of the dependency loop.  An error carries the
accumulator as of the failure, since earlier fetches have already
persisted their writes. -/
def resolveStep (cache_dir : String) (hub : Hub) (acc : ResolveSt) (p : String × String) :
    Except (BoxedError × ResolveSt) ResolveSt :=
  let doFetch : Except (BoxedError × ResolveSt) (String × ResolveSt) :=
    let f := fetch_sphere_from_hub p.2 cache_dir hub acc.mem acc.st
    let acc' : ResolveSt := ⟨f.memIndex, f.st, acc.effs ++ f.effs, acc.deps⟩
    match f.res with
    | .error m => .error (.other m, acc')
    | .ok path => .ok (path, acc')
  let afterPath : Except (BoxedError × ResolveSt) (String × ResolveSt) :=
    match alGet acc.mem p.2 with
    | some loc =>
      -- lines 461-478: absolute locations are used as-is, relative ones
      -- are joined to the cache dir; a missing file falls back to the Hub
      let current_dep_path := pjoin cache_dir loc
      if (alGet acc.st.fs current_dep_path).isSome then .ok (current_dep_path, acc)
      else doFetch
    | none => doFetch
  match afterPath with
  | .error e => .error e
  | .ok (dep_path, acc1) =>
    match alGet acc1.st.fs dep_path with
    | none =>
      -- lines 485-487
      .error (.other ("Failed to obtain dependency '" ++ p.1 ++ "' (Sphere ID: '" ++ p.2
          ++ "'). Expected at '" ++ dep_path ++ "' after attempting local cache and Hub fetch."),
        acc1)
    | some dep_content =>
      match tomlFromStr dep_content with
      | .error te =>
        -- lines 503-504
        .error (.other ("Failed to parse TOML for dependency '" ++ p.2 ++ "' (file: "
            ++ dep_path ++ "): " ++ te.message), acc1)
      | .ok dep_process =>
        .ok ⟨acc1.mem, acc1.st, acc1.effs, acc1.deps ++ [⟨p.1, dep_process⟩]⟩

/-- The shim-writing loop (lines 520-532): for each resolved dependency a
file at `bin_path.join(alias)` with mode `0o755` containing a `#!/bin/sh`
line followed by the dependency's entrypoint (each `writeln!` appends a
newline). -/
def writeShims (ox : Ox) (bin_path : String) :
    List Dependency → List Effect → Except (String × List Effect) (List Effect)
  | [], effs => .ok effs
  | d :: ds, effs =>
    let script_path := pjoin bin_path d.aliasName
    if ox.shimFail script_path then .error ("Failed to create shim file", effs)
    else
      writeShims ox bin_path ds
        (effs ++ [.shimWrite script_path ("#!/bin/sh\n" ++ d.process.entrypoint ++ "\n") 0o755])

/-- Everything observable about one `run_sphere` invocation. -/
structure RunOut where
  res : Except BoxedError Unit
  cmd : Option ExecCmd
  resolved : List Dependency
  st : CacheSt
  effs : List Effect

/-- Lines 513-573 of `run_sphere`: sandbox creation, shim writing and
execution, entered once resolution produced `resolved_deps`.  The
`TempDir` returned by `tempdir()` removes its directory recursively when
dropped, i.e. on every exit from the scope it lives in; the model
therefore appends `sandboxRemove` to the trace of every branch that
follows a successful `tempdir()`. -/
def sandboxPhase (entrypoint : String) (procEnv : String → Option String) (ox : Ox)
    (resolved_deps : List Dependency) (st1 : CacheSt) (effs1 : List Effect) : RunOut :=
  match ox.tempdirRes with
  | .error m => ⟨.error (.other m), none, resolved_deps, st1, effs1⟩
  | .ok root =>
    let bin_path := root ++ "/bin"
    match writeShims ox bin_path resolved_deps [] with
    | .error (m, shimEffs) =>
      ⟨.error (.other m), none, resolved_deps, st1,
        effs1 ++ [.sandboxCreate root] ++ shimEffs ++ [.sandboxRemove root]⟩
    | .ok shimEffs =>
      let original_path := (procEnv "PATH").getD ""
      let new_path := bin_path ++ ":" ++ original_path
      let cmd : ExecCmd := ⟨"sh", ["-c", entrypoint], root,
        fun k => if k == "PATH" then some new_path else procEnv k⟩
      match ox.execRes with
      | .error m =>
        ⟨.error (.other m), some cmd, resolved_deps, st1,
          effs1 ++ [.sandboxCreate root] ++ shimEffs ++ [.execCall, .sandboxRemove root]⟩
      | .ok _ =>
        ⟨.ok (), some cmd, resolved_deps, st1,
          effs1 ++ [.sandboxCreate root] ++ shimEffs ++ [.execCall, .sandboxRemove root]⟩

/-- Model of `run_sphere` (lines 427-574): read and parse the manifest,
resolve the dependencies (loading the index and building the HTTP client
only when a dependency map is present), then enter the sandbox phase. -/
def run_sphere (file_path : String) (cache_dir : String) (hub : Hub)
    (procEnv : String → Option String) (ox : Ox) (st0 : CacheSt) : RunOut :=
  match alGet st0.fs file_path with
  | none =>
    ⟨.error (.other ("Failed to read sphere file '" ++ file_path
        ++ "': No such file or directory (os error 2)")), none, [], st0, []⟩
  | some content =>
    match tomlFromStr content with
    | .error te =>
      -- lines 430-431: the toml error is formatted into a `String` here,
      -- so the boxed error reaching `main` is not a `toml::de::Error`
      ⟨.error (.other ("Failed to parse TOML from '" ++ file_path ++ "': " ++ te.message)),
        none, [], st0, []⟩
    | .ok sphere_process =>
      match sphere_process.dependencies with
      | none => sandboxPhase sphere_process.entrypoint procEnv ox [] st0 []
      | some deps =>
        -- lines 445-456: cache paths, index load, HTTP client build
        let init : ResolveSt := ⟨st0.diskIndex, st0, [.idxRead, .httpBuild], []⟩
        match (ox.iterOrder deps).foldlM (resolveStep cache_dir hub) init with
        | .error (e, a) => ⟨.error e, none, [], a.st, a.effs⟩
        | .ok a => sandboxPhase sphere_process.entrypoint procEnv ox a.deps a.st a.effs

/-! ## The publish flow's parse step and `main`'s error presentation -/

/-- The parse step of `handle_sphere_publish` (lines 271-274): like
`run_sphere`, it formats the toml error into a `String`. -/
def publishParse (file_path content : String) : Except BoxedError SphereProcess :=
  match tomlFromStr content with
  | .error te =>
    .error (.other ("Failed to parse TOML from '" ++ file_path ++ "': " ++ te.message))
  | .ok p => .ok p

/-- The prefix list of lines 631-640. -/
def custom_prefixes : List String :=
  ["Dependency", "Failed to read sphere file", "Failed to parse TOML from",
   "Sphere ID", "Source file", "A file named", "Failed to copy",
   "Failed to get absolute path", "Failed to save cache index",
   "Failed to parse cache index", "Could not determine home directory",
   "Cannot derive a valid cache filename", "Failed to fetch SphereHub master index",
   "not found in the public SphereHub registry", "Failed to fetch Sphere file",
   "Hash mismatch for Sphere", "Failed to save downloaded Sphere"]

/-- The error message `main` prints (lines 600-646): the dedicated or
generic TOML message when `downcast_ref::<toml::de::Error>()` succeeds,
otherwise the error's own display, prefixed with `Application error:`
only when no known fragment occurs in it. -/
def topLevelErrorMessage (file_path_for_error : Option String) (e : BoxedError) : String :=
  match e with
  | .toml toml_error =>
    let path_str := file_path_for_error.getD "the specified .sphere file"
    if containsSub toml_error.message "missing field `entrypoint`" then
      "The file '" ++ path_str ++ "' is missing the required 'entrypoint' field."
    else
      "Failed to parse TOML from '" ++ path_str ++ "'. Reason: " ++ toml_error.message
  | .other s =>
    if custom_prefixes.any (fun p => containsSub s p) then s
    else "Application error: " ++ s

/-- The user-facing message of a failed `sphere run`, `none` on success. -/
def runUserMessage (file_path : String) (cache_dir : String) (hub : Hub)
    (procEnv : String → Option String) (ox : Ox) (st0 : CacheSt) : Option String :=
  match (run_sphere file_path cache_dir hub procEnv ox st0).res with
  | .ok _ => none
  | .error e => some (topLevelErrorMessage (some file_path) e)

/-! ## Effect predicates -/

/-- `true` for every effect except a sandbox creation. -/
def sandboxFree : Effect → Bool
  | .sandboxCreate _ => false
  | _ => true

/-- Every sandbox created in the trace is also removed in it. -/
def sandboxBalancedB (l : List Effect) : Bool :=
  l.all fun e =>
    match e with
    | .sandboxCreate r => decide (Effect.sandboxRemove r ∈ l)
    | _ => true

/-- The shim effect the builder records for one resolved dependency. -/
def shimEff (bin_path : String) (d : Dependency) : Effect :=
  .shimWrite (pjoin bin_path d.aliasName) ("#!/bin/sh\n" ++ d.process.entrypoint ++ "\n") 0o755

/-- `true` exactly for shim-write effects. -/
def isShimEff : Effect → Bool
  | .shimWrite _ _ _ => true
  | _ => false

/-- `false` exactly for cache-index, HTTP and cache-file effects — the
effects C10 says a dependency-free run must not perform. -/
def nonResolutionEffect : Effect → Bool
  | .idxRead => false
  | .idxWrite => false
  | .httpBuild => false
  | .httpGet _ => false
  | .fileWrite _ _ => false
  | _ => true

/-! ## Concrete environments used by closed theorems and witnesses -/

/-- An empty registry serving nothing. -/
def noHub : Hub := ⟨[], fun _ => none⟩

/-- An empty process environment. -/
def noEnv : String → Option String := fun _ => none

/-- A benign OS oracle: the hash map yields entries in declaration
order, `tempdir()` yields `/tmp/sandbox`, file creation and execution
succeed. -/
def oxPlain : Ox := ⟨id, .ok "/tmp/sandbox", fun _ => false, .ok ⟨"", "", true⟩⟩

/-- The same oracle with the opposite (equally possible) hash-map
iteration order. -/
def oxRev : Ox := ⟨List.reverse, .ok "/tmp/sandbox", fun _ => false, .ok ⟨"", "", true⟩⟩

/-- A registry entry advertising digest `"0000"` for `t.sphere`. -/
def fetchWitnessInfo : HubSphereInfo := ⟨"t.sphere", "d", "a", "0000"⟩

/-- A hub serving `"payload"` (real digest ≠ `"0000"`) for `t.sphere`. -/
def fetchWitnessHub : Hub :=
  ⟨[("com.x/t", fetchWitnessInfo)], fun n => if n = "t.sphere" then some "payload" else none⟩

/-- State for the C3 scenario: a manifest whose only dependency
`myalias → com.missing/x` is neither cached nor in the registry. -/
def stNotFound : CacheSt :=
  ⟨[("/m", "entrypoint = \"top\"\n[dependencies]\nmyalias = \"com.missing/x\"")], []⟩

/-- State for the C4 scenario: two dependencies, both locally cached. -/
def stTwoDeps : CacheSt :=
  ⟨[("/m", "entrypoint = \"top\"\n[dependencies]\naa = \"id.a\"\nbb = \"id.b\""),
    ("/c/a.sphere", "entrypoint = \"e1\""),
    ("/c/b.sphere", "entrypoint = \"e2\"")],
   [("id.a", "a.sphere"), ("id.b", "b.sphere")]⟩

/-- State for the C6 counterexample: the dependency alias is the
absolute path `/pwn` (a TOML quoted key), its target locally cached. -/
def stAbsAlias : CacheSt :=
  ⟨[("/m6", "entrypoint = \"top\"\n[dependencies]\n\"/pwn\" = \"com.x/t\""),
    ("/c/t.sphere", "entrypoint = \"boom\"")],
   [("com.x/t", "t.sphere")]⟩

/-- State for the C7 witness: a source manifest at `/src/tool.sphere`
and a parent manifest at `/m` referencing `com.example/foo` as `foo`. -/
def stRoundtrip : CacheSt :=
  ⟨[("/src/tool.sphere", "entrypoint = \"echo world\""),
    ("/m", "entrypoint = \"foo\"\n[dependencies]\nfoo = \"com.example/foo\"")],
   []⟩

/-- A sample process environment with `PATH` and `HOME` set. -/
def envSample : String → Option String :=
  fun k => if k = "PATH" then some "/usr/bin" else if k = "HOME" then some "/h" else none

/-! ## Helper lemmas -/

instance {ε α : Type} [DecidableEq ε] [DecidableEq α] : DecidableEq (Except ε α) := fun a b =>
  match a, b with
  | .ok x, .ok y =>
    if h : x = y then .isTrue (by rw [h]) else .isFalse (by intro hh; injection hh; exact h ‹_›)
  | .ok _, .error _ => .isFalse (fun h => Except.noConfusion h)
  | .error _, .ok _ => .isFalse (fun h => Except.noConfusion h)
  | .error x, .error y =>
    if h : x = y then .isTrue (by rw [h]) else .isFalse (by intro hh; injection hh; exact h ‹_›)

theorem alGet_alInsert_self {α : Type} (k : String) (v : α) (l : List (String × α)) :
    alGet (alInsert k v l) k = some v := by
  induction l with
  | nil => simp [alInsert, alGet]
  | cons p ps ih =>
    by_cases h : p.1 == k
    · simp [alInsert, alGet, h]
    · simp [alInsert, alGet, h, ih]

theorem alGet_alInsert_ne {α : Type} (k k' : String) (v : α) (l : List (String × α))
    (h : k' ≠ k) : alGet (alInsert k v l) k' = alGet l k' := by
  induction l with
  | nil =>
    simp only [alInsert, alGet]
    simp [Ne.symm h]
  | cons p ps ih =>
    by_cases hp : p.1 == k
    · have hpk : p.1 = k := by simpa using hp
      simp [alInsert, alGet, hp, hpk, h, Ne.symm h]
    · simp [alInsert, alGet, hp, ih]

theorem mentions_of_data (msg sub : String) (pre post : List Char)
    (h : msg.data = pre ++ sub.data ++ post) : mentions msg sub := ⟨pre, post, h.symm⟩

/-! ## C1 — integrity verification in the Hub Fetcher

On a digest mismatch, `fetch_sphere_from_hub` fails with the
hash-mismatch error reporting both digests, and neither the cache
directory, nor the in-memory index, nor the on-disk index change; the
state changes only when the digests compare equal. -/

/-- C1: for a dependency whose registry entry advertises
`info.hash_sha256` and whose downloaded bytes are those of `body`, a
digest mismatch makes the fetch fail with an error mentioning the
expected and the computed digest while leaving the file system, the
in-memory index and the on-disk index untouched; conversely, any change
to them implies the digests were equal. -/
theorem fetch_integrity_mismatch_rejected
    (sphere_id cache_dir : String) (hub : Hub) (mem : List (String × String)) (st : CacheSt)
    (info : HubSphereInfo) (body : String)
    (hlook : alGet hub.masterIndex sphere_id = some info)
    (hbody : hub.fileContent info.filename = some body) :
    (sha256hex (strBytes body) ≠ info.hash_sha256 →
      ∃ msg, (fetch_sphere_from_hub sphere_id cache_dir hub mem st).res = .error msg
        ∧ mentions msg info.hash_sha256
        ∧ mentions msg (sha256hex (strBytes body))
        ∧ (fetch_sphere_from_hub sphere_id cache_dir hub mem st).memIndex = mem
        ∧ (fetch_sphere_from_hub sphere_id cache_dir hub mem st).st = st)
    ∧ ((fetch_sphere_from_hub sphere_id cache_dir hub mem st).st ≠ st
        ∨ (fetch_sphere_from_hub sphere_id cache_dir hub mem st).memIndex ≠ mem →
      sha256hex (strBytes body) = info.hash_sha256) := by
  by_cases hne : sha256hex (strBytes body) = info.hash_sha256
  · refine ⟨fun h => absurd hne h, fun _ => hne⟩
  · have hres : fetch_sphere_from_hub sphere_id cache_dir hub mem st =
        ⟨.error ("Hash mismatch for Sphere '" ++ sphere_id ++ "' (file '" ++ info.filename
            ++ "')! Expected: " ++ info.hash_sha256 ++ ", Got: " ++ sha256hex (strBytes body)
            ++ ". File may be corrupted or tampered."),
          mem, st,
          [.httpGet (SPHEREHUB_REGISTRY_URL ++ "index.json"),
           .httpGet (SPHEREHUB_REGISTRY_URL ++ "spheres/" ++ info.filename)]⟩ := by
      simp [fetch_sphere_from_hub, hlook, hbody, hne]
    refine ⟨fun _ => ?_, fun h => ?_⟩
    · rw [hres]
      refine ⟨_, rfl, ?_, ?_, rfl, rfl⟩
      · exact mentions_of_data _ _
          ("Hash mismatch for Sphere '" ++ sphere_id ++ "' (file '" ++ info.filename
            ++ "')! Expected: ").data
          (", Got: " ++ sha256hex (strBytes body) ++ ". File may be corrupted or tampered.").data
          (by simp [String.data_append])
      · exact mentions_of_data _ _
          ("Hash mismatch for Sphere '" ++ sphere_id ++ "' (file '" ++ info.filename
            ++ "')! Expected: " ++ info.hash_sha256 ++ ", Got: ").data
          (". File may be corrupted or tampered.").data
          (by simp [String.data_append])
    · rw [hres] at h
      simp at h

/-- Witness for C1 at a concrete mismatching fetch. -/
theorem fetch_integrity_mismatch_rejected_witness :
    (alGet fetchWitnessHub.masterIndex "com.x/t" = some fetchWitnessInfo
      ∧ fetchWitnessHub.fileContent fetchWitnessInfo.filename = some "payload"
      ∧ sha256hex (strBytes "payload") ≠ fetchWitnessInfo.hash_sha256)
    ∧ ((sha256hex (strBytes "payload") ≠ fetchWitnessInfo.hash_sha256 →
        ∃ msg, (fetch_sphere_from_hub "com.x/t" "/c" fetchWitnessHub [] ⟨[], []⟩).res = .error msg
          ∧ mentions msg fetchWitnessInfo.hash_sha256
          ∧ mentions msg (sha256hex (strBytes "payload"))
          ∧ (fetch_sphere_from_hub "com.x/t" "/c" fetchWitnessHub [] ⟨[], []⟩).memIndex = []
          ∧ (fetch_sphere_from_hub "com.x/t" "/c" fetchWitnessHub [] ⟨[], []⟩).st = ⟨[], []⟩)
      ∧ ((fetch_sphere_from_hub "com.x/t" "/c" fetchWitnessHub [] ⟨[], []⟩).st ≠ (⟨[], []⟩ : CacheSt)
          ∨ (fetch_sphere_from_hub "com.x/t" "/c" fetchWitnessHub [] ⟨[], []⟩).memIndex ≠ [] →
        sha256hex (strBytes "payload") = fetchWitnessInfo.hash_sha256)) :=
  ⟨⟨by decide, by decide, by decide⟩,
    fetch_integrity_mismatch_rejected "com.x/t" "/c" fetchWitnessHub [] ⟨[], []⟩
      fetchWitnessInfo "payload" (by decide) (by decide)⟩

/-! ## C5 — `cache add` rejects empty and duplicate ids without mutation -/

/-- C5: `handle_cache_add` fails on an empty id and on an id already
present in the index, and in both cases the state (file system, on-disk
index and hence every existing entry) is unchanged and no write effect
occurs. -/
theorem cache_add_rejects_empty_and_duplicate
    (id sphere_file_path : String) (copy_to_cache : Bool) (cache_dir : String) (st : CacheSt)
    (h : trimStr id = "" ∨ (alGet st.diskIndex id).isSome = true) :
    (∃ m, (handle_cache_add id sphere_file_path copy_to_cache cache_dir st).1 = .error m)
    ∧ (handle_cache_add id sphere_file_path copy_to_cache cache_dir st).2.1 = st
    ∧ (handle_cache_add id sphere_file_path copy_to_cache cache_dir st).2.2 = [.idxRead] := by
  unfold handle_cache_add
  rcases h with h | h
  · simp [h]
  · by_cases he : trimStr id = ""
    · simp [he]
    · simp [he, h]

/-- Witness for C5: a second `cache add` of an id already in the index
fails and leaves the state untouched. -/
theorem cache_add_rejects_empty_and_duplicate_witness :
    ((trimStr "dup" = "" ∨ (alGet [("dup", "x.sphere")] "dup").isSome = true)
    ∧ (∃ m, (handle_cache_add "dup" "/s" true "/c" ⟨[("/s", "c")], [("dup", "x.sphere")]⟩).1
        = .error m)
    ∧ (handle_cache_add "dup" "/s" true "/c" ⟨[("/s", "c")], [("dup", "x.sphere")]⟩).2.1
        = ⟨[("/s", "c")], [("dup", "x.sphere")]⟩
    ∧ (handle_cache_add "dup" "/s" true "/c" ⟨[("/s", "c")], [("dup", "x.sphere")]⟩).2.2
        = [.idxRead]) := by
  have h := cache_add_rejects_empty_and_duplicate "dup" "/s" true "/c"
    ⟨[("/s", "c")], [("dup", "x.sphere")]⟩ (Or.inr (by decide))
  exact ⟨Or.inr (by decide), h.1, h.2.1, h.2.2⟩

/-! ## Effect-trace lemmas -/

theorem fetch_effs_sandboxFree (sphere_id cache_dir : String) (hub : Hub)
    (mem : List (String × String)) (st : CacheSt) :
    (fetch_sphere_from_hub sphere_id cache_dir hub mem st).effs.all sandboxFree = true := by
  unfold fetch_sphere_from_hub
  cases halg : alGet hub.masterIndex sphere_id with
  | none => rfl
  | some info =>
    dsimp only
    cases hfc : hub.fileContent info.filename with
    | none => rfl
    | some body =>
      dsimp only
      by_cases h : sha256hex (strBytes body) = info.hash_sha256
      · rw [if_neg (fun hc => hc h)]
        rfl
      · rw [if_pos h]
        rfl

theorem resolveStep_sandboxFree (cache_dir : String) (hub : Hub) (acc : ResolveSt)
    (p : String × String) (h : acc.effs.all sandboxFree = true) :
    match resolveStep cache_dir hub acc p with
    | .ok r => r.effs.all sandboxFree = true
    | .error (_, a) => a.effs.all sandboxFree = true := by
  have hfetch := fetch_effs_sandboxFree p.2 cache_dir hub acc.mem acc.st
  have hacc2 : (acc.effs ++ (fetch_sphere_from_hub p.2 cache_dir hub acc.mem acc.st).effs).all
      sandboxFree = true := by
    rw [List.all_append, h, hfetch]; rfl
  unfold resolveStep
  dsimp only
  cases hfr : (fetch_sphere_from_hub p.2 cache_dir hub acc.mem acc.st).res with
  | error m =>
    cases halg : alGet acc.mem p.2 with
    | none =>
      dsimp only
      exact hacc2
    | some loc =>
      dsimp only
      by_cases hex : (alGet acc.st.fs (pjoin cache_dir loc)).isSome
      · rw [if_pos hex]
        dsimp only
        cases hrd : alGet acc.st.fs (pjoin cache_dir loc) with
        | none => exact h
        | some dep_content =>
          dsimp only
          cases tomlFromStr dep_content with
          | error te => exact h
          | ok dp => exact h
      · rw [if_neg hex]
        dsimp only
        exact hacc2
  | ok path =>
    cases halg : alGet acc.mem p.2 with
    | none =>
      dsimp only
      cases hrd : alGet ((fetch_sphere_from_hub p.2 cache_dir hub acc.mem acc.st).st).fs path with
      | none => exact hacc2
      | some dep_content =>
        dsimp only
        cases tomlFromStr dep_content with
        | error te => exact hacc2
        | ok dp => exact hacc2
    | some loc =>
      dsimp only
      by_cases hex : (alGet acc.st.fs (pjoin cache_dir loc)).isSome
      · rw [if_pos hex]
        dsimp only
        cases hrd : alGet acc.st.fs (pjoin cache_dir loc) with
        | none => exact h
        | some dep_content =>
          dsimp only
          cases tomlFromStr dep_content with
          | error te => exact h
          | ok dp => exact h
      · rw [if_neg hex]
        dsimp only
        cases hrd : alGet ((fetch_sphere_from_hub p.2 cache_dir hub acc.mem acc.st).st).fs path with
        | none => exact hacc2
        | some dep_content =>
          dsimp only
          cases tomlFromStr dep_content with
          | error te => exact hacc2
          | ok dp => exact hacc2

theorem foldResolve_sandboxFree (cache_dir : String) (hub : Hub) :
    ∀ (l : List (String × String)) (acc : ResolveSt),
      acc.effs.all sandboxFree = true →
      match l.foldlM (resolveStep cache_dir hub) acc with
      | .ok r => r.effs.all sandboxFree = true
      | .error (_, a) => a.effs.all sandboxFree = true := by
  intro l
  induction l with
  | nil => intro acc h; simpa using h
  | cons x xs ih =>
    intro acc h
    have hstep := resolveStep_sandboxFree cache_dir hub acc x h
    rw [List.foldlM_cons]
    cases hr : resolveStep cache_dir hub acc x with
    | error ea =>
      obtain ⟨e, a⟩ := ea
      rw [hr] at hstep
      simpa using hstep
    | ok r =>
      rw [hr] at hstep
      simpa using ih r hstep

theorem writeShims_sandboxFree (ox : Ox) (bin_path : String) :
    ∀ (ds : List Dependency) (effs : List Effect), effs.all sandboxFree = true →
      match writeShims ox bin_path ds effs with
      | .ok l => l.all sandboxFree = true
      | .error (_, l) => l.all sandboxFree = true := by
  intro ds
  induction ds with
  | nil => intro effs h; simpa [writeShims] using h
  | cons d ds ih =>
    intro effs h
    unfold writeShims
    by_cases hf : ox.shimFail (pjoin bin_path d.aliasName)
    · simp [hf, h]
    · simp only [hf, if_false, Bool.false_eq_true]
      exact ih _ (by simp [List.all_append, h, sandboxFree])

theorem writeShims_ok_of_no_fail (ox : Ox) (bin_path : String)
    (hsf : ∀ p, ox.shimFail p = false) :
    ∀ (ds : List Dependency) (effs : List Effect),
      writeShims ox bin_path ds effs = .ok (effs ++ ds.map (shimEff bin_path)) := by
  intro ds
  induction ds with
  | nil => intro effs; simp [writeShims]
  | cons d ds ih =>
    intro effs
    unfold writeShims
    simp only [hsf, Bool.false_eq_true, if_false]
    rw [ih]
    simp [shimEff, List.append_assoc]

theorem sandboxBalancedB_of_sandboxFree (l : List Effect) (h : l.all sandboxFree = true) :
    sandboxBalancedB l = true := by
  unfold sandboxBalancedB
  rw [List.all_eq_true] at h ⊢
  intro e he
  have := h e he
  cases e <;> simp_all [sandboxFree]

theorem sandboxBalancedB_scope (l1 l2 : List Effect) (root : String)
    (h1 : l1.all sandboxFree = true) (h2 : l2.all sandboxFree = true) :
    sandboxBalancedB (l1 ++ [.sandboxCreate root] ++ l2 ++ [.sandboxRemove root]) = true := by
  unfold sandboxBalancedB
  rw [List.all_eq_true] at h1 h2 ⊢
  intro e he
  cases e with
  | sandboxCreate r =>
    simp only [List.mem_append, List.mem_singleton] at he
    rcases he with ((hm | hm) | hm) | hm
    · exact absurd (h1 _ hm) (by simp [sandboxFree])
    · have hr : r = root := by injection hm
      subst hr
      simp [List.mem_append]
    · exact absurd (h2 _ hm) (by simp [sandboxFree])
    · exact absurd hm (by simp)
  | idxRead => rfl
  | idxWrite => rfl
  | httpBuild => rfl
  | httpGet url => rfl
  | fileWrite p c => rfl
  | shimWrite p c m => rfl
  | sandboxRemove r => rfl
  | execCall => rfl

theorem sandboxPhase_balanced (entrypoint : String) (procEnv : String → Option String)
    (ox : Ox) (rd : List Dependency) (st1 : CacheSt) (effs1 : List Effect)
    (h1 : effs1.all sandboxFree = true) :
    sandboxBalancedB (sandboxPhase entrypoint procEnv ox rd st1 effs1).effs = true := by
  have hmain : ∀ (shimEffs : List Effect) (root : String),
      shimEffs.all sandboxFree = true →
      sandboxBalancedB (effs1 ++ [Effect.sandboxCreate root] ++ shimEffs
        ++ [Effect.execCall, Effect.sandboxRemove root]) = true := by
    intro shimEffs root hsh
    have hshx : (shimEffs ++ [Effect.execCall]).all sandboxFree = true := by
      rw [List.all_append, hsh]; rfl
    have hassoc :
        effs1 ++ [Effect.sandboxCreate root] ++ shimEffs
          ++ [Effect.execCall, Effect.sandboxRemove root]
        = effs1 ++ [Effect.sandboxCreate root] ++ (shimEffs ++ [Effect.execCall])
          ++ [Effect.sandboxRemove root] := by
      simp [List.append_assoc]
    rw [hassoc]
    exact sandboxBalancedB_scope _ _ _ h1 hshx
  unfold sandboxPhase
  cases ox.tempdirRes with
  | error m => exact sandboxBalancedB_of_sandboxFree _ h1
  | ok root =>
    dsimp only
    have hsh := writeShims_sandboxFree ox (root ++ "/bin") rd [] rfl
    cases hw : writeShims ox (root ++ "/bin") rd [] with
    | error me =>
      obtain ⟨m, shimEffs⟩ := me
      rw [hw] at hsh
      dsimp only
      exact sandboxBalancedB_scope _ _ _ h1 hsh
    | ok shimEffs =>
      rw [hw] at hsh
      dsimp only
      cases ox.execRes with
      | error m => exact hmain shimEffs root hsh
      | ok r => exact hmain shimEffs root hsh

/-! ## C8 — the sandbox is removed on every exit path

`tempdir()` is called only after resolution; its `TempDir` guard removes
the directory on every exit from the sandbox scope (success, shim
failure, execution failure), and error paths before its creation create
no sandbox at all. -/

/-- C8: in every run's effect trace, every sandbox creation is matched
by a removal of the same root — no exit path leaks the sandbox. -/
theorem run_sandbox_always_removed (file_path cache_dir : String) (hub : Hub)
    (procEnv : String → Option String) (ox : Ox) (st0 : CacheSt) :
    sandboxBalancedB (run_sphere file_path cache_dir hub procEnv ox st0).effs = true := by
  unfold run_sphere
  cases alGet st0.fs file_path with
  | none => rfl
  | some content =>
    dsimp only
    cases tomlFromStr content with
    | error te => rfl
    | ok sp =>
      dsimp only
      cases sp.dependencies with
      | none => exact sandboxPhase_balanced _ _ _ _ _ _ rfl
      | some deps =>
        dsimp only
        have hfold := foldResolve_sandboxFree cache_dir hub (ox.iterOrder deps)
          ⟨st0.diskIndex, st0, [.idxRead, .httpBuild], []⟩ rfl
        cases hf : (ox.iterOrder deps).foldlM (resolveStep cache_dir hub)
            ⟨st0.diskIndex, st0, [.idxRead, .httpBuild], []⟩ with
        | error ea =>
          obtain ⟨e, a⟩ := ea
          rw [hf] at hfold
          dsimp only
          exact sandboxBalancedB_of_sandboxFree _ hfold
        | ok a =>
          rw [hf] at hfold
          dsimp only
          exact sandboxPhase_balanced _ _ _ _ _ _ hfold

/-! ## C10 — a dependency-free run performs no index or network access

When the parsed manifest has no `dependencies` table, lines 445-456
(cache paths, index load, HTTP client construction) are skipped
entirely: the run goes straight from parsing to the sandbox phase. -/

/-- C10: for a manifest without a dependency map, the run's trace
contains no index read or write, no HTTP client construction, no HTTP
request and no cache-file write, and the cache state is untouched. -/
theorem no_deps_run_touches_no_index_or_network
    (file_path cache_dir mc : String) (hub : Hub) (procEnv : String → Option String)
    (ox : Ox) (st0 : CacheSt) (sp : SphereProcess)
    (hread : alGet st0.fs file_path = some mc)
    (hparse : tomlFromStr mc = .ok sp)
    (hnone : sp.dependencies = none) :
    (run_sphere file_path cache_dir hub procEnv ox st0).effs.all nonResolutionEffect = true
    ∧ (run_sphere file_path cache_dir hub procEnv ox st0).st = st0 := by
  have hrun : run_sphere file_path cache_dir hub procEnv ox st0
      = sandboxPhase sp.entrypoint procEnv ox [] st0 [] := by
    simp [run_sphere, hread, hparse, hnone]
  rw [hrun]
  unfold sandboxPhase
  cases ox.tempdirRes with
  | error m => exact ⟨rfl, rfl⟩
  | ok root =>
    cases ox.execRes with
    | error m => exact ⟨rfl, rfl⟩
    | ok r => exact ⟨rfl, rfl⟩

/-- Witness for C10: a concrete dependency-free run. -/
theorem no_deps_run_touches_no_index_or_network_witness :
    (alGet (⟨[("/m0", "entrypoint = \"echo hi\"")], [("some.id", "x.sphere")]⟩ : CacheSt).fs "/m0"
        = some "entrypoint = \"echo hi\""
      ∧ tomlFromStr "entrypoint = \"echo hi\""
        = .ok (⟨none, "echo hi", none⟩ : SphereProcess)
      ∧ (⟨none, "echo hi", none⟩ : SphereProcess).dependencies = none)
    ∧ ((run_sphere "/m0" "/c" noHub noEnv oxPlain
          ⟨[("/m0", "entrypoint = \"echo hi\"")], [("some.id", "x.sphere")]⟩).effs.all
        nonResolutionEffect = true
      ∧ (run_sphere "/m0" "/c" noHub noEnv oxPlain
          ⟨[("/m0", "entrypoint = \"echo hi\"")], [("some.id", "x.sphere")]⟩).st
        = ⟨[("/m0", "entrypoint = \"echo hi\"")], [("some.id", "x.sphere")]⟩) :=
  ⟨⟨by decide, by decide, by decide⟩,
    no_deps_run_touches_no_index_or_network "/m0" "/c" "entrypoint = \"echo hi\"" noHub noEnv
      oxPlain ⟨[("/m0", "entrypoint = \"echo hi\"")], [("some.id", "x.sphere")]⟩
      ⟨none, "echo hi", none⟩ (by decide) (by decide) (by decide)⟩

/-! ## C2 — the dedicated missing-`entrypoint` message is unreachable

`main` (lines 619-628) produces the dedicated message only when
`downcast_ref::<toml::de::Error>()` succeeds, but `run_sphere` (line
430-431) and `handle_sphere_publish` (line 273-274) convert the toml
error into a `String` with `map_err(|e| format!(...))` before boxing, so
the downcast always fails and the user sees the generic
`Failed to parse TOML from ...` text instead. -/

/-- C2 (refuted): running a manifest that is valid TOML but lacks
`entrypoint` yields the generic parse-failure message, not the dedicated
missing-field message; the publish flow boxes the same `String`-typed
error; the dedicated branch of `main` would fire only on a genuine
`toml::de::Error`, which neither flow ever surfaces. -/
theorem run_missing_entrypoint_generic_message :
    runUserMessage "/app.sphere" "/c" noHub noEnv oxPlain ⟨[("/app.sphere", "id = \"x\"")], []⟩
      = some "Failed to parse TOML from '/app.sphere': missing field `entrypoint`"
    ∧ runUserMessage "/app.sphere" "/c" noHub noEnv oxPlain ⟨[("/app.sphere", "id = \"x\"")], []⟩
      ≠ some "The file '/app.sphere' is missing the required 'entrypoint' field."
    ∧ publishParse "/app.sphere" "id = \"x\""
      = .error (.other "Failed to parse TOML from '/app.sphere': missing field `entrypoint`")
    ∧ topLevelErrorMessage (some "/app.sphere")
        (.other "Failed to parse TOML from '/app.sphere': missing field `entrypoint`")
      = "Failed to parse TOML from '/app.sphere': missing field `entrypoint`"
    ∧ topLevelErrorMessage (some "/app.sphere") (.toml ⟨"missing field `entrypoint`"⟩)
      = "The file '/app.sphere' is missing the required 'entrypoint' field." :=
  ⟨by decide, by decide, by decide, by decide, by decide⟩

/-! ## C3 — the dependency-not-found error does not name the alias

`fetch_sphere_from_hub` formats the not-found error at lines 379-381
from the sphere id and the registry URL only; the alias is not passed to
the fetcher at all. -/

/-- C3 counterexample: with dependency `myalias → com.missing/x` absent
from both the local index and the registry, the run fails with a message
that names the id but not the alias, refuting the as-stated claim that
the error names both. -/
theorem dep_not_found_error_lacks_alias :
    (run_sphere "/m" "/c" noHub noEnv oxPlain stNotFound).res
      = .error (.other ("Sphere ID 'com.missing/x' not found in the public SphereHub registry at "
          ++ "https://raw.githubusercontent.com/Nakadra/sphere-hub-registry/main/registry/index.json."))
    ∧ mentions ("Sphere ID 'com.missing/x' not found in the public SphereHub registry at "
          ++ "https://raw.githubusercontent.com/Nakadra/sphere-hub-registry/main/registry/index.json.")
        "com.missing/x"
    ∧ ¬ mentions ("Sphere ID 'com.missing/x' not found in the public SphereHub registry at "
          ++ "https://raw.githubusercontent.com/Nakadra/sphere-hub-registry/main/registry/index.json.")
        "myalias"
    ∧ (run_sphere "/m" "/c" noHub noEnv oxPlain stNotFound).effs
      = [.idxRead, .httpBuild,
         .httpGet "https://raw.githubusercontent.com/Nakadra/sphere-hub-registry/main/registry/index.json"] :=
  ⟨by decide, by decide, by decide, by decide⟩

/-! ## C4 — dependency processing order is not deterministic across runs

The loop at line 458 iterates a `std::collections::HashMap`, whose
iteration order depends on a randomly seeded hasher, so two runs on the
same manifest may process the same dependency map in different orders.
Both `oxPlain.iterOrder` (declaration order) and `oxRev.iterOrder`
(reversed) are permutations of the map's entries, i.e. possible
iteration orders. -/

/-- C4 (refuted): two runs on identical input state, differing only in
the hash map's iteration order (both orders being permutations of the
same two-entry dependency map), produce different traces — the shims are
written in different orders — so processing order is not a function of
the manifest. -/
theorem resolver_order_not_deterministic :
    (∀ l : List (String × String), List.Perm (oxPlain.iterOrder l) l)
    ∧ (∀ l : List (String × String), List.Perm (oxRev.iterOrder l) l)
    ∧ (run_sphere "/m" "/c" noHub noEnv oxPlain stTwoDeps).effs.filter isShimEff
      = [.shimWrite "/tmp/sandbox/bin/aa" "#!/bin/sh\ne1\n" 0o755,
         .shimWrite "/tmp/sandbox/bin/bb" "#!/bin/sh\ne2\n" 0o755]
    ∧ (run_sphere "/m" "/c" noHub noEnv oxRev stTwoDeps).effs.filter isShimEff
      = [.shimWrite "/tmp/sandbox/bin/bb" "#!/bin/sh\ne2\n" 0o755,
         .shimWrite "/tmp/sandbox/bin/aa" "#!/bin/sh\ne1\n" 0o755]
    ∧ (run_sphere "/m" "/c" noHub noEnv oxPlain stTwoDeps).effs
      ≠ (run_sphere "/m" "/c" noHub noEnv oxRev stTwoDeps).effs :=
  ⟨fun l => List.Perm.refl l, fun l => List.reverse_perm l,
   by decide, by decide, by decide⟩

/-- C3 (amended): when resolution reaches a dependency `(alias, id)`
whose id is in neither the in-memory index at that point nor the
registry's master index, the run fails with the not-found error — whose
text names the id and the registry URL but is built without the alias —
and the trace contains no sandbox creation (the sandbox is created only
after all dependencies resolve). -/
theorem dep_not_found_aborts_before_sandbox
    (file_path cache_dir mc : String) (hub : Hub) (procEnv : String → Option String)
    (ox : Ox) (st0 : CacheSt) (sp : SphereProcess)
    (dl pre post : List (String × String)) (aliasName sphere_id : String) (acc : ResolveSt)
    (hread : alGet st0.fs file_path = some mc)
    (hparse : tomlFromStr mc = .ok sp)
    (hdeps : sp.dependencies = some dl)
    (horder : ox.iterOrder dl = pre ++ (aliasName, sphere_id) :: post)
    (hpre : pre.foldlM (resolveStep cache_dir hub)
        (⟨st0.diskIndex, st0, [.idxRead, .httpBuild], []⟩ : ResolveSt) = .ok acc)
    (hmem : alGet acc.mem sphere_id = none)
    (hhub : alGet hub.masterIndex sphere_id = none) :
    (run_sphere file_path cache_dir hub procEnv ox st0).res
      = .error (.other ("Sphere ID '" ++ sphere_id
          ++ "' not found in the public SphereHub registry at "
          ++ (SPHEREHUB_REGISTRY_URL ++ "index.json") ++ "."))
    ∧ mentions ("Sphere ID '" ++ sphere_id
          ++ "' not found in the public SphereHub registry at "
          ++ (SPHEREHUB_REGISTRY_URL ++ "index.json") ++ ".") sphere_id
    ∧ (run_sphere file_path cache_dir hub procEnv ox st0).effs.all sandboxFree = true := by
  have hfetch : fetch_sphere_from_hub sphere_id cache_dir hub acc.mem acc.st
      = ⟨.error ("Sphere ID '" ++ sphere_id
            ++ "' not found in the public SphereHub registry at "
            ++ (SPHEREHUB_REGISTRY_URL ++ "index.json") ++ "."),
          acc.mem, acc.st, [.httpGet (SPHEREHUB_REGISTRY_URL ++ "index.json")]⟩ := by
    unfold fetch_sphere_from_hub
    rw [hhub]
  have hstep : resolveStep cache_dir hub acc (aliasName, sphere_id)
      = .error (.other ("Sphere ID '" ++ sphere_id
            ++ "' not found in the public SphereHub registry at "
            ++ (SPHEREHUB_REGISTRY_URL ++ "index.json") ++ "."),
          ⟨acc.mem, acc.st, acc.effs ++ [.httpGet (SPHEREHUB_REGISTRY_URL ++ "index.json")],
           acc.deps⟩) := by
    unfold resolveStep
    dsimp only
    rw [hmem, hfetch]
  have haccfree : acc.effs.all sandboxFree = true := by
    have h := foldResolve_sandboxFree cache_dir hub pre
      ⟨st0.diskIndex, st0, [.idxRead, .httpBuild], []⟩ rfl
    rw [hpre] at h
    exact h
  have hrun : run_sphere file_path cache_dir hub procEnv ox st0
      = ⟨.error (.other ("Sphere ID '" ++ sphere_id
            ++ "' not found in the public SphereHub registry at "
            ++ (SPHEREHUB_REGISTRY_URL ++ "index.json") ++ ".")),
          none, [],
          acc.st, acc.effs ++ [.httpGet (SPHEREHUB_REGISTRY_URL ++ "index.json")]⟩ := by
    unfold run_sphere
    rw [hread]
    dsimp only
    rw [hparse]
    dsimp only
    rw [hdeps]
    dsimp only
    rw [horder, List.foldlM_append, hpre]
    dsimp only [Bind.bind, Except.bind]
    rw [List.foldlM_cons, hstep]
    rfl
  refine ⟨by rw [hrun], ?_, ?_⟩
  · exact mentions_of_data _ _ ("Sphere ID '").data
      (("' not found in the public SphereHub registry at "
        ++ (SPHEREHUB_REGISTRY_URL ++ "index.json") ++ ".").data)
      (by simp [String.data_append])
  · rw [hrun]
    show (acc.effs ++ [Effect.httpGet (SPHEREHUB_REGISTRY_URL ++ "index.json")]).all sandboxFree
      = true
    rw [List.all_append, haccfree]
    rfl

/-- Witness for C3's amended theorem: the concrete not-found scenario. -/
theorem dep_not_found_aborts_before_sandbox_witness :
    (alGet stNotFound.fs "/m"
        = some "entrypoint = \"top\"\n[dependencies]\nmyalias = \"com.missing/x\""
      ∧ oxPlain.iterOrder [("myalias", "com.missing/x")]
        = [] ++ ("myalias", "com.missing/x") :: []
      ∧ alGet (⟨stNotFound.diskIndex, stNotFound, [.idxRead, .httpBuild], []⟩ : ResolveSt).mem
          "com.missing/x" = none
      ∧ alGet noHub.masterIndex "com.missing/x" = none)
    ∧ (run_sphere "/m" "/c" noHub noEnv oxPlain stNotFound).res
      = .error (.other ("Sphere ID '" ++ "com.missing/x"
          ++ "' not found in the public SphereHub registry at "
          ++ (SPHEREHUB_REGISTRY_URL ++ "index.json") ++ "."))
    ∧ mentions ("Sphere ID '" ++ "com.missing/x"
          ++ "' not found in the public SphereHub registry at "
          ++ (SPHEREHUB_REGISTRY_URL ++ "index.json") ++ ".") "com.missing/x"
    ∧ (run_sphere "/m" "/c" noHub noEnv oxPlain stNotFound).effs.all sandboxFree = true := by
  have h := dep_not_found_aborts_before_sandbox "/m" "/c"
    "entrypoint = \"top\"\n[dependencies]\nmyalias = \"com.missing/x\"" noHub noEnv oxPlain
    stNotFound ⟨none, "top", some [("myalias", "com.missing/x")]⟩
    [("myalias", "com.missing/x")] [] [] "myalias" "com.missing/x"
    ⟨stNotFound.diskIndex, stNotFound, [.idxRead, .httpBuild], []⟩
    (by decide) (by decide) (by decide) (by decide) rfl (by decide) (by decide)
  exact ⟨⟨by decide, by decide, by decide, by decide⟩, h.1, h.2.1, h.2.2⟩

/-! ## C6 — shim files and the absolute-alias escape

The shim loop (lines 520-532) writes, for every resolved dependency, a
file at `bin_path.join(alias)` with mode `0o755` whose content is
`#!/bin/sh` followed by the dependency's entrypoint verbatim.  Because
`Path::join` *replaces* the base when its argument is absolute, an alias
that is an absolute path (expressible as a TOML quoted key, e.g.
`"/pwn" = "com.x/t"`) makes the shim land outside `<sandbox>/bin`,
refuting the claim's "writes in `<sandbox>/bin` a shim file named
exactly the dependency's alias" as universally stated. -/

/-- C6 counterexample: with dependency alias `/pwn`, the run's only shim
write goes to the absolute path `/pwn`, which is not under
`/tmp/sandbox/bin`. -/
theorem shim_for_absolute_alias_escapes_bin :
    (run_sphere "/m6" "/c" noHub noEnv oxPlain stAbsAlias).effs.filter isShimEff
      = [.shimWrite "/pwn" "#!/bin/sh\nboom\n" 0o755]
    ∧ List.isPrefixOf "/tmp/sandbox/bin".data "/pwn".data = false
    ∧ (run_sphere "/m6" "/c" noHub noEnv oxPlain stAbsAlias).res = .ok () :=
  ⟨by decide, by decide, by decide⟩

theorem sandboxPhase_resolved (entrypoint : String) (procEnv : String → Option String)
    (ox : Ox) (rd : List Dependency) (st1 : CacheSt) (effs1 : List Effect) :
    (sandboxPhase entrypoint procEnv ox rd st1 effs1).resolved = rd := by
  unfold sandboxPhase
  cases ox.tempdirRes with
  | error m => rfl
  | ok root =>
    dsimp only
    cases hw : writeShims ox (root ++ "/bin") rd [] with
    | error me => obtain ⟨m, l⟩ := me; rfl
    | ok l =>
      dsimp only
      cases ox.execRes with
      | error m => rfl
      | ok r => rfl

theorem sandboxPhase_shims (entrypoint : String) (procEnv : String → Option String)
    (ox : Ox) (rd : List Dependency) (st1 : CacheSt) (effs1 : List Effect) (root : String)
    (hroot : ox.tempdirRes = .ok root) (hsf : ∀ p, ox.shimFail p = false) :
    ∀ d ∈ rd,
      Effect.shimWrite (pjoin (root ++ "/bin") d.aliasName)
          ("#!/bin/sh\n" ++ d.process.entrypoint ++ "\n") 0o755
        ∈ (sandboxPhase entrypoint procEnv ox rd st1 effs1).effs := by
  unfold sandboxPhase
  rw [hroot]
  dsimp only
  rw [writeShims_ok_of_no_fail ox (root ++ "/bin") hsf rd []]
  dsimp only
  cases ox.execRes with
  | error m =>
    dsimp only
    intro d hd
    exact List.mem_append.mpr (Or.inl (List.mem_append.mpr
      (Or.inr (List.mem_map_of_mem (shimEff (root ++ "/bin")) hd))))
  | ok r =>
    dsimp only
    intro d hd
    exact List.mem_append.mpr (Or.inl (List.mem_append.mpr
      (Or.inr (List.mem_map_of_mem (shimEff (root ++ "/bin")) hd))))

/-- C6 (amended): for every resolved dependency, the run records exactly
one shim write at `Path::join(<sandbox>/bin, alias)` — equal to
`<sandbox>/bin/<alias>` whenever the alias is not an absolute path —
with mode `0o755` and content `#!/bin/sh` plus the dependency's own
entrypoint verbatim, each line newline-terminated. -/
theorem shims_written_for_every_resolved_dep
    (file_path cache_dir : String) (hub : Hub) (procEnv : String → Option String)
    (ox : Ox) (st0 : CacheSt) (root : String)
    (hroot : ox.tempdirRes = .ok root)
    (hsf : ∀ p, ox.shimFail p = false) :
    ∀ d ∈ (run_sphere file_path cache_dir hub procEnv ox st0).resolved,
      (Effect.shimWrite (pjoin (root ++ "/bin") d.aliasName)
          ("#!/bin/sh\n" ++ d.process.entrypoint ++ "\n") 0o755
        ∈ (run_sphere file_path cache_dir hub procEnv ox st0).effs)
      ∧ (isAbsPath d.aliasName = false →
          pjoin (root ++ "/bin") d.aliasName = root ++ "/bin" ++ "/" ++ d.aliasName) := by
  have hjoin : ∀ d : Dependency, isAbsPath d.aliasName = false →
      pjoin (root ++ "/bin") d.aliasName = root ++ "/bin" ++ "/" ++ d.aliasName := by
    intro d habs
    unfold pjoin
    rw [habs]
    rfl
  unfold run_sphere
  cases alGet st0.fs file_path with
  | none => intro d hd; exact absurd hd (List.not_mem_nil d)
  | some content =>
    dsimp only
    cases tomlFromStr content with
    | error te => intro d hd; exact absurd hd (List.not_mem_nil d)
    | ok sp =>
      dsimp only
      cases sp.dependencies with
      | none =>
        intro d hd
        rw [sandboxPhase_resolved] at hd
        exact ⟨sandboxPhase_shims sp.entrypoint procEnv ox [] st0 [] root hroot hsf d hd,
          hjoin d⟩
      | some deps =>
        dsimp only
        cases hf : (ox.iterOrder deps).foldlM (resolveStep cache_dir hub)
            ⟨st0.diskIndex, st0, [.idxRead, .httpBuild], []⟩ with
        | error ea =>
          obtain ⟨e, a⟩ := ea
          intro d hd
          exact absurd hd (List.not_mem_nil d)
        | ok a =>
          intro d hd
          rw [sandboxPhase_resolved] at hd
          exact ⟨sandboxPhase_shims sp.entrypoint procEnv ox a.deps a.st a.effs root hroot hsf
            d hd, hjoin d⟩

/-- Witness for C6's amended theorem at a concrete resolved dependency. -/
theorem shims_written_for_every_resolved_dep_witness :
    (oxPlain.tempdirRes = .ok "/tmp/sandbox"
      ∧ oxPlain.shimFail "/tmp/sandbox/bin/aa" = false
      ∧ (⟨"aa", ⟨none, "e1", none⟩⟩ : Dependency)
          ∈ (run_sphere "/m" "/c" noHub noEnv oxPlain stTwoDeps).resolved)
    ∧ Effect.shimWrite "/tmp/sandbox/bin/aa" "#!/bin/sh\ne1\n" 0o755
        ∈ (run_sphere "/m" "/c" noHub noEnv oxPlain stTwoDeps).effs
    ∧ pjoin ("/tmp/sandbox" ++ "/bin") "aa" = "/tmp/sandbox" ++ "/bin" ++ "/" ++ "aa" := by
  have h := shims_written_for_every_resolved_dep "/m" "/c" noHub noEnv oxPlain stTwoDeps
    "/tmp/sandbox" rfl (fun _ => rfl) ⟨"aa", ⟨none, "e1", none⟩⟩ (by decide)
  exact ⟨⟨rfl, rfl, by decide⟩, h.1, h.2 (by decide)⟩

/-! ## C9 — the executor's command line, working directory and environment -/

theorem sandboxPhase_cmd (entrypoint : String) (procEnv : String → Option String)
    (ox : Ox) (rd : List Dependency) (st1 : CacheSt) (effs1 : List Effect)
    (root : String) (cmd : ExecCmd)
    (hroot : ox.tempdirRes = .ok root)
    (hcmd : (sandboxPhase entrypoint procEnv ox rd st1 effs1).cmd = some cmd) :
    cmd = ⟨"sh", ["-c", entrypoint], root,
      fun k => if k == "PATH" then some (root ++ "/bin" ++ ":" ++ (procEnv "PATH").getD "")
        else procEnv k⟩ := by
  unfold sandboxPhase at hcmd
  rw [hroot] at hcmd
  dsimp only at hcmd
  cases hw : writeShims ox (root ++ "/bin") rd [] with
  | error me =>
    obtain ⟨m, l⟩ := me
    rw [hw] at hcmd
    exact absurd hcmd (by simp)
  | ok l =>
    rw [hw] at hcmd
    dsimp only at hcmd
    cases hx : ox.execRes with
    | error m =>
      rw [hx] at hcmd
      dsimp only at hcmd
      exact (Option.some.inj hcmd).symm
    | ok r =>
      rw [hx] at hcmd
      dsimp only at hcmd
      exact (Option.some.inj hcmd).symm

/-- C9: whenever a run builds its executor command, that command is
`sh -c <entrypoint>` with the parsed manifest's entrypoint unmodified,
its working directory is the sandbox root, and its environment equals
the process environment except that `PATH` is `<sandbox>/bin` prepended
with `:` to the original `PATH` (empty when unset). -/
theorem executor_command_shape
    (file_path cache_dir mc : String) (hub : Hub) (procEnv : String → Option String)
    (ox : Ox) (st0 : CacheSt) (sp : SphereProcess) (root : String) (cmd : ExecCmd)
    (hread : alGet st0.fs file_path = some mc)
    (hparse : tomlFromStr mc = .ok sp)
    (hroot : ox.tempdirRes = .ok root)
    (hcmd : (run_sphere file_path cache_dir hub procEnv ox st0).cmd = some cmd) :
    cmd.prog = "sh" ∧ cmd.args = ["-c", sp.entrypoint] ∧ cmd.cwd = root
    ∧ cmd.env "PATH" = some (root ++ "/bin" ++ ":" ++ (procEnv "PATH").getD "")
    ∧ ∀ k, k ≠ "PATH" → cmd.env k = procEnv k := by
  have hmain : cmd = (⟨"sh", ["-c", sp.entrypoint], root,
      fun k => if k == "PATH" then some (root ++ "/bin" ++ ":" ++ (procEnv "PATH").getD "")
        else procEnv k⟩ : ExecCmd) := by
    unfold run_sphere at hcmd
    rw [hread] at hcmd
    dsimp only at hcmd
    rw [hparse] at hcmd
    dsimp only at hcmd
    cases hd : sp.dependencies with
    | none =>
      rw [hd] at hcmd
      dsimp only at hcmd
      exact sandboxPhase_cmd sp.entrypoint procEnv ox [] st0 [] root cmd hroot hcmd
    | some deps =>
      rw [hd] at hcmd
      dsimp only at hcmd
      cases hf : (ox.iterOrder deps).foldlM (resolveStep cache_dir hub)
          ⟨st0.diskIndex, st0, [.idxRead, .httpBuild], []⟩ with
      | error ea =>
        obtain ⟨e, a⟩ := ea
        rw [hf] at hcmd
        exact absurd hcmd (by simp)
      | ok a =>
        rw [hf] at hcmd
        dsimp only at hcmd
        exact sandboxPhase_cmd sp.entrypoint procEnv ox a.deps a.st a.effs root cmd hroot hcmd
  subst hmain
  refine ⟨rfl, rfl, rfl, by simp, ?_⟩
  intro k hk
  have hb : (k == "PATH") = false := beq_eq_false_iff_ne.mpr hk
  simp [hb]

/-- Witness for C9: a concrete run whose command is fully inspected. -/
theorem executor_command_shape_witness :
    (alGet (⟨[("/m0", "entrypoint = \"echo hi\"")], []⟩ : CacheSt).fs "/m0"
        = some "entrypoint = \"echo hi\""
      ∧ oxPlain.tempdirRes = .ok "/tmp/sandbox")
    ∧ (run_sphere "/m0" "/c" noHub envSample oxPlain
        ⟨[("/m0", "entrypoint = \"echo hi\"")], []⟩).cmd.map
          (fun c => (c.prog, c.args, c.cwd, c.env "PATH", c.env "HOME", c.env "FOO"))
      = some ("sh", ["-c", "echo hi"], "/tmp/sandbox",
          some "/tmp/sandbox/bin:/usr/bin", some "/h", none) := by
  refine ⟨⟨by decide, rfl⟩, ?_⟩
  cases hcmd : (run_sphere "/m0" "/c" noHub envSample oxPlain
      ⟨[("/m0", "entrypoint = \"echo hi\"")], []⟩).cmd with
  | none =>
    have : (run_sphere "/m0" "/c" noHub envSample oxPlain
        ⟨[("/m0", "entrypoint = \"echo hi\"")], []⟩).cmd.isSome = true := by decide
    rw [hcmd] at this
    exact absurd this (by simp)
  | some c =>
    have h := executor_command_shape "/m0" "/c" "entrypoint = \"echo hi\"" noHub envSample
      oxPlain ⟨[("/m0", "entrypoint = \"echo hi\"")], []⟩ ⟨none, "echo hi", none⟩
      "/tmp/sandbox" c (by decide) (by decide) rfl hcmd
    have hHOME := h.2.2.2.2 "HOME" (by decide)
    have hFOO := h.2.2.2.2 "FOO" (by decide)
    simp only [Option.map, h.1, h.2.1, h.2.2.1, h.2.2.2.1, hHOME, hFOO]
    rfl

/-! ## C7 — `cache add --copy-to-cache` round-trips the entrypoint -/

theorem handle_cache_add_copy_ok
    (id src cdir : String) (st0 : CacheSt) (c nm : String)
    (h1 : ¬ trimStr id = "")
    (h2 : alGet st0.diskIndex id = none)
    (h3 : alGet st0.fs src = some c)
    (h4 : derivedName id = some nm)
    (h5 : alGet st0.fs (pjoin cdir nm) = none) :
    handle_cache_add id src true cdir st0
      = (.ok (), ⟨alInsert (pjoin cdir nm) c st0.fs, alInsert id nm st0.diskIndex⟩,
         [.idxRead, .fileWrite (pjoin cdir nm) c, .idxWrite]) := by
  unfold handle_cache_add
  rw [if_neg h1]
  rw [h2]
  dsimp only
  rw [h3]
  dsimp only
  rw [h4]
  dsimp only
  rw [h5]
  rfl

/-- C7: adding a manifest file (entrypoint `sp.entrypoint`) to the cache
with `--copy-to-cache` under id `id`, then running a manifest whose
dependency map resolves to the single pair `(alias, id)`, records a shim
for `alias` whose invoked entrypoint string is exactly `sp.entrypoint`,
the entrypoint of the original file. -/
theorem cache_add_roundtrip_entrypoint
    (id src cdir mpath mc : String) (st0 : CacheSt) (c nm : String)
    (sp parent : SphereProcess) (hub : Hub) (procEnv : String → Option String) (ox : Ox)
    (root aliasName : String) (dl : List (String × String))
    (h1 : ¬ trimStr id = "") (h2 : alGet st0.diskIndex id = none)
    (h3 : alGet st0.fs src = some c) (h4 : derivedName id = some nm)
    (h5 : alGet st0.fs (pjoin cdir nm) = none)
    (hdep : tomlFromStr c = .ok sp)
    (hm : alGet (alInsert (pjoin cdir nm) c st0.fs) mpath = some mc)
    (hp : tomlFromStr mc = .ok parent)
    (hdl : parent.dependencies = some dl)
    (hord : ox.iterOrder dl = [(aliasName, id)])
    (hroot : ox.tempdirRes = .ok root)
    (hsf : ∀ p, ox.shimFail p = false) :
    Effect.shimWrite (pjoin (root ++ "/bin") aliasName)
        ("#!/bin/sh\n" ++ sp.entrypoint ++ "\n") 0o755
      ∈ (run_sphere mpath cdir hub procEnv ox
          (handle_cache_add id src true cdir st0).2.1).effs := by
  rw [handle_cache_add_copy_ok id src cdir st0 c nm h1 h2 h3 h4 h5]
  dsimp only
  have hstep : resolveStep cdir hub
      ⟨alInsert id nm st0.diskIndex,
       ⟨alInsert (pjoin cdir nm) c st0.fs, alInsert id nm st0.diskIndex⟩,
       [.idxRead, .httpBuild], []⟩
      (aliasName, id)
      = .ok ⟨alInsert id nm st0.diskIndex,
          ⟨alInsert (pjoin cdir nm) c st0.fs, alInsert id nm st0.diskIndex⟩,
          [.idxRead, .httpBuild], [⟨aliasName, sp⟩]⟩ := by
    unfold resolveStep
    dsimp only
    rw [alGet_alInsert_self id nm st0.diskIndex]
    dsimp only
    rw [alGet_alInsert_self (pjoin cdir nm) c st0.fs]
    simp only [Option.isSome_some, if_true]
    rw [alGet_alInsert_self (pjoin cdir nm) c st0.fs]
    dsimp only
    rw [hdep]
    rfl
  unfold run_sphere
  dsimp only
  rw [hm]
  dsimp only
  rw [hp]
  dsimp only
  rw [hdl]
  dsimp only
  rw [hord, List.foldlM_cons, hstep]
  dsimp only [Bind.bind, Except.bind]
  rw [List.foldlM_nil]
  dsimp only [pure, Except.pure]
  exact sandboxPhase_shims parent.entrypoint procEnv ox [⟨aliasName, sp⟩]
    ⟨alInsert (pjoin cdir nm) c st0.fs, alInsert id nm st0.diskIndex⟩
    [.idxRead, .httpBuild] root hroot hsf ⟨aliasName, sp⟩ (List.mem_singleton.mpr rfl)

/-- Witness for C7: the concrete round-trip of
`cache add com.example/foo /src/tool.sphere --copy-to-cache` followed by
a run resolving `foo → com.example/foo`; the shim invokes `echo world`,
the entrypoint of the original file. -/
theorem cache_add_roundtrip_entrypoint_witness :
    (¬ trimStr "com.example/foo" = ""
      ∧ alGet stRoundtrip.diskIndex "com.example/foo" = none
      ∧ alGet stRoundtrip.fs "/src/tool.sphere" = some "entrypoint = \"echo world\""
      ∧ derivedName "com.example/foo" = some "com.example_foo.sphere"
      ∧ alGet stRoundtrip.fs (pjoin "/c" "com.example_foo.sphere") = none
      ∧ tomlFromStr "entrypoint = \"echo world\""
        = .ok (⟨none, "echo world", none⟩ : SphereProcess)
      ∧ oxPlain.iterOrder [("foo", "com.example/foo")] = [("foo", "com.example/foo")])
    ∧ Effect.shimWrite (pjoin ("/tmp/sandbox" ++ "/bin") "foo")
        ("#!/bin/sh\n" ++ "echo world" ++ "\n") 0o755
      ∈ (run_sphere "/m" "/c" noHub noEnv oxPlain
          (handle_cache_add "com.example/foo" "/src/tool.sphere" true "/c" stRoundtrip).2.1).effs :=
  ⟨⟨by decide, by decide, by decide, by decide, by decide, by decide, rfl⟩,
    cache_add_roundtrip_entrypoint "com.example/foo" "/src/tool.sphere" "/c" "/m"
      "entrypoint = \"foo\"\n[dependencies]\nfoo = \"com.example/foo\"" stRoundtrip
      "entrypoint = \"echo world\"" "com.example_foo.sphere"
      ⟨none, "echo world", none⟩
      ⟨none, "foo", some [("foo", "com.example/foo")]⟩ noHub noEnv oxPlain
      "/tmp/sandbox" "foo" [("foo", "com.example/foo")]
      (by decide) (by decide) (by decide) (by decide) (by decide) (by decide) (by decide)
      (by decide) (by decide) rfl rfl (fun _ => rfl)⟩

end Sphere
